import Mathlib

/-!
Verification of the TSL2591 sky-quality modules of the allsky-modules
repository (allsky_pisqm.py and allsky_tsl2591SQM.py).

The sensor driver, the auto-ranging controller, the low-light averager,
the persisted smart-start seed and the photometric calculator are embedded
shallowly: machine counts are `Nat`, Python ints that may go negative are
`Int`, float arithmetic whose exact decimal values matter is `Rat`, and the
transcendental helpers `math.log10` and `round(x, 2)` are abstracted as
function parameters since no property below depends on their values.
Register writes to the bus are reflected in explicit state records.
-/

namespace Allsky

/-! ## Constants (allsky_pisqm.py lines 66-78, identical in allsky_tsl2591SQM.py) -/

def GAIN_LOW : Nat := 0x00

def GAIN_MED : Nat := 0x10

def GAIN_HIGH : Nat := 0x20

def GAIN_MAX : Nat := 0x30

/-- Integration-time enum values are 0x00 .. 0x05 (100ms .. 600ms); we use the
raw `Nat` codes 0..5 directly, as the source does arithmetic on them. -/
def INTEGRATIONTIME_600MS : Nat := 0x05

/-! ## Driver configuration state -/

/-- The mutable configuration of the `Tsl2591` driver object: `gain` holds the
raw gain code (0x00, 0x10, 0x20 or 0x30) of `self.gain`, and `integ` the
integration-time enum (0 to 5) of `self.integration_time`. -/
structure St where
  gain : Nat
  integ : Nat
deriving DecidableEq, Repr

/-- A configuration is valid when the gain code is one of the four defined
levels and the integration enum is one of the six defined steps. -/
abbrev validSt (s : St) : Prop :=
  (s.gain = GAIN_LOW ∨ s.gain = GAIN_MED ∨ s.gain = GAIN_HIGH ∨ s.gain = GAIN_MAX) ∧
  s.integ ≤ 5

/-- `Tsl2591.get_int_time_ms` of allsky_pisqm.py (lines 124-133): dictionary
lookup from integration enum to milliseconds, defaulting to 100. -/
def get_int_time_ms (integ : Nat) : Nat :=
  if integ = 0 then 100
  else if integ = 1 then 200
  else if integ = 2 then 300
  else if integ = 3 then 400
  else if integ = 4 then 500
  else if integ = 5 then 600
  else 100

/-! ## Auto-ranging controller of allsky_pisqm.py (`Tsl2591.advanced_read`) -/

/-- Direction of one sensitivity adjustment taken by the auto-ranging loop. -/
inductive Dir where
  | down
  | up
deriving DecidableEq, Repr

/-- How the `while attempt < max_attempts` loop of `advanced_read` was left:
`band` for the in-band final `break`, `stuck` for a `break` with no possible
adjustment (`changed` stayed `False`), `cap` for exhaustion of the 15-attempt
cap after a `continue`. -/
inductive ExitKind where
  | band
  | stuck
  | cap
deriving DecidableEq, Repr

/-- The observable outcome of one `advanced_read` cycle: the returned raw
counts `full` and `ir`, the configuration `readSt` under which that returned
reading was taken, the driver configuration `finalSt` left in `self` on
return, the number of bus reading attempts, the exit kind, the list of
adjustment directions taken, and the list of configurations visited. -/
structure RunResult where
  full : Nat
  ir : Nat
  readSt : St
  finalSt : St
  reads : Nat
  exitKind : ExitKind
  events : List Dir
  trace : List St
deriving DecidableEq, Repr

/-- The sensitivity-decrease branch of `advanced_read` (allsky_pisqm.py lines
196-208, taken when `full > 60000`): step gain down one level while
`self.gain > GAIN_LOW` (the source sets `changed = True` even when the gain
code matches no level of the chain, leaving it unchanged), otherwise step
integration time down while above `INTEGRATIONTIME_100MS`. `some` is the new
state when the source sets `changed = True` and `continue`s; `none` is the
fall-through `break`. -/
def stepDown (s : St) : Option St :=
  if s.gain > GAIN_LOW then
    some { s with gain :=
      if s.gain = GAIN_MAX then GAIN_HIGH
      else if s.gain = GAIN_HIGH then GAIN_MED
      else if s.gain = GAIN_MED then GAIN_LOW
      else s.gain }
  else if s.integ > 0 then
    some { s with integ := s.integ - 1 }
  else
    none

/-- The sensitivity-increase branch of `advanced_read` (allsky_pisqm.py lines
211-233, taken when `full < 2000`): step gain up one level while
`self.gain < GAIN_MAX` (here `changed` is set only inside the matched branch,
so an unmatched gain code falls through to `break`), otherwise step
integration time up while below `INTEGRATIONTIME_600MS`. -/
def stepUp (s : St) : Option St :=
  if s.gain < GAIN_MAX then
    if s.gain = GAIN_LOW then some { s with gain := GAIN_MED }
    else if s.gain = GAIN_MED then some { s with gain := GAIN_HIGH }
    else if s.gain = GAIN_HIGH then some { s with gain := GAIN_MAX }
    else none
  else if s.integ < INTEGRATIONTIME_600MS then
    some { s with integ := s.integ + 1 }
  else
    none

/-- Record one adjustment taken from state `s` in direction `d` in front of
the rest of the run. -/
def addStep (d : Dir) (s : St) (r : RunResult) : RunResult :=
  { r with events := d :: r.events, trace := s :: r.trace }

/-- The body of the `while attempt < max_attempts` loop of
`Tsl2591.advanced_read` (allsky_pisqm.py lines 185-235). `fuel` counts the
remaining attempts, `n` the bus reading attempts already made (the bus
response of attempt `n` is `resp n`), and `lf`, `li`, `ls` carry the previous
attempt's reading and its configuration so that the cap-exhaustion exit can
return them, exactly as the Python loop returns the variables `full`, `ir`
of the last iteration while `self` holds the possibly newer configuration. -/
def runAux (resp : Nat → Nat × Nat) (fuel n : Nat) (s : St) (lf li : Nat) (ls : St) :
    RunResult :=
  match fuel with
  | 0 => ⟨lf, li, ls, s, n, ExitKind.cap, [], [s]⟩
  | fuel + 1 =>
    if (resp n).1 > 60000 then
      match stepDown s with
      | some s2 => addStep Dir.down s (runAux resp fuel (n + 1) s2 (resp n).1 (resp n).2 s)
      | none => ⟨(resp n).1, (resp n).2, s, s, n + 1, ExitKind.stuck, [], [s]⟩
    else if (resp n).1 < 2000 then
      match stepUp s with
      | some s2 => addStep Dir.up s (runAux resp fuel (n + 1) s2 (resp n).1 (resp n).2 s)
      | none => ⟨(resp n).1, (resp n).2, s, s, n + 1, ExitKind.stuck, [], [s]⟩
    else
      ⟨(resp n).1, (resp n).2, s, s, n + 1, ExitKind.band, [], [s]⟩

/-- `Tsl2591.advanced_read` of allsky_pisqm.py (lines 177-238): the
auto-ranging loop with `max_attempts = 15`, starting with zero attempts made
from configuration `s`. -/
def advancedRead (resp : Nat → Nat × Nat) (s : St) : RunResult :=
  runAux resp 15 0 s 0 0 s

theorem runAux_zero (resp : Nat → Nat × Nat) (n : Nat) (s : St) (lf li : Nat) (ls : St) :
    runAux resp 0 n s lf li ls = ⟨lf, li, ls, s, n, ExitKind.cap, [], [s]⟩ := rfl

theorem runAux_succ (resp : Nat → Nat × Nat) (fuel n : Nat) (s : St) (lf li : Nat) (ls : St) :
    runAux resp (fuel + 1) n s lf li ls =
      if (resp n).1 > 60000 then
        match stepDown s with
        | some s2 => addStep Dir.down s (runAux resp fuel (n + 1) s2 (resp n).1 (resp n).2 s)
        | none => ⟨(resp n).1, (resp n).2, s, s, n + 1, ExitKind.stuck, [], [s]⟩
      else if (resp n).1 < 2000 then
        match stepUp s with
        | some s2 => addStep Dir.up s (runAux resp fuel (n + 1) s2 (resp n).1 (resp n).2 s)
        | none => ⟨(resp n).1, (resp n).2, s, s, n + 1, ExitKind.stuck, [], [s]⟩
      else
        ⟨(resp n).1, (resp n).2, s, s, n + 1, ExitKind.band, [], [s]⟩ := rfl

/-! ### Controller lemmas -/

theorem stepDown_valid {s s2 : St} (hv : validSt s) (h : stepDown s = some s2) :
    validSt s2 := by
  obtain ⟨hg, hi⟩ := hv
  unfold stepDown at h
  rcases hg with hg | hg | hg | hg <;>
    simp [hg, GAIN_LOW, GAIN_MED, GAIN_HIGH, GAIN_MAX, validSt] at h ⊢ <;>
    first
      | (obtain ⟨h1, h2⟩ := h; subst h2; simp [validSt, GAIN_LOW, GAIN_MED, GAIN_HIGH, GAIN_MAX]; omega)
      | (subst h; simp [validSt, GAIN_LOW, GAIN_MED, GAIN_HIGH, GAIN_MAX]; omega)

theorem stepUp_valid {s s2 : St} (hv : validSt s) (h : stepUp s = some s2) :
    validSt s2 := by
  obtain ⟨hg, hi⟩ := hv
  unfold stepUp at h
  rcases hg with hg | hg | hg | hg <;>
    simp [hg, GAIN_LOW, GAIN_MED, GAIN_HIGH, GAIN_MAX, INTEGRATIONTIME_600MS] at h ⊢ <;>
    first
      | (obtain ⟨h1, h2⟩ := h; subst h2; simp [validSt, GAIN_LOW, GAIN_MED, GAIN_HIGH, GAIN_MAX]; omega)
      | (subst h; simp [validSt, GAIN_LOW, GAIN_MED, GAIN_HIGH, GAIN_MAX]; omega)

theorem stepDown_ne {s s2 : St} (hv : validSt s) (h : stepDown s = some s2) :
    s2 ≠ s := by
  obtain ⟨g, t⟩ := s
  obtain ⟨hg, hi⟩ := hv
  simp [GAIN_LOW, GAIN_MED, GAIN_HIGH, GAIN_MAX] at hg
  unfold stepDown at h
  rcases hg with rfl | rfl | rfl | rfl <;>
    simp [GAIN_LOW, GAIN_MED, GAIN_HIGH, GAIN_MAX] at h
  · obtain ⟨h1, h2⟩ := h
    subst h2
    simp [St.mk.injEq]
    omega
  · subst h
    simp [St.mk.injEq]
  · subst h
    simp [St.mk.injEq]
  · subst h
    simp [St.mk.injEq]

theorem stepUp_ne {s s2 : St} (hv : validSt s) (h : stepUp s = some s2) :
    s2 ≠ s := by
  obtain ⟨g, t⟩ := s
  obtain ⟨hg, hi⟩ := hv
  simp [GAIN_LOW, GAIN_MED, GAIN_HIGH, GAIN_MAX] at hg
  unfold stepUp at h
  rcases hg with rfl | rfl | rfl | rfl <;>
    simp [GAIN_LOW, GAIN_MED, GAIN_HIGH, GAIN_MAX, INTEGRATIONTIME_600MS] at h
  · subst h
    simp [St.mk.injEq]
  · subst h
    simp [St.mk.injEq]
  · subst h
    simp [St.mk.injEq]
  · obtain ⟨h1, h2⟩ := h
    subst h2
    simp [St.mk.injEq]

/-- Every configuration in the trace of the auto-ranging loop satisfies any
property preserved by `stepDown` and `stepUp`, starting from a state that has
it. -/
theorem runAux_trace_pres (resp : Nat → Nat × Nat) (P : St → Prop)
    (hd : ∀ s s2, P s → stepDown s = some s2 → P s2)
    (hu : ∀ s s2, P s → stepUp s = some s2 → P s2) :
    ∀ fuel n s lf li ls, P s → ∀ x ∈ (runAux resp fuel n s lf li ls).trace, P x := by
  intro fuel
  induction fuel with
  | zero =>
    intro n s lf li ls hs x hx
    rw [runAux_zero] at hx
    simp at hx
    exact hx ▸ hs
  | succ f ih =>
    intro n s lf li ls hs x hx
    rw [runAux_succ] at hx
    by_cases h1 : (resp n).1 > 60000
    · rw [if_pos h1] at hx
      cases hsd : stepDown s with
      | some s2 =>
        rw [hsd] at hx
        simp [addStep] at hx
        rcases hx with hx | hx
        · exact hx ▸ hs
        · exact ih (n + 1) s2 (resp n).1 (resp n).2 s (hd s s2 hs hsd) x hx
      | none =>
        rw [hsd] at hx
        simp at hx
        exact hx ▸ hs
    · rw [if_neg h1] at hx
      by_cases h2 : (resp n).1 < 2000
      · rw [if_pos h2] at hx
        cases hsu : stepUp s with
        | some s2 =>
          rw [hsu] at hx
          simp [addStep] at hx
          rcases hx with hx | hx
          · exact hx ▸ hs
          · exact ih (n + 1) s2 (resp n).1 (resp n).2 s (hu s s2 hs hsu) x hx
        | none =>
          rw [hsu] at hx
          simp at hx
          exact hx ▸ hs
      · rw [if_neg h2] at hx
        simp at hx
        exact hx ▸ hs

/-- The number of reading attempts is bounded by the attempts already made
plus the remaining fuel. -/
theorem runAux_reads_le (resp : Nat → Nat × Nat) :
    ∀ fuel n s lf li ls, (runAux resp fuel n s lf li ls).reads ≤ n + fuel := by
  intro fuel
  induction fuel with
  | zero =>
    intro n s lf li ls
    rw [runAux_zero]
    simp
  | succ f ih =>
    intro n s lf li ls
    rw [runAux_succ]
    by_cases h1 : (resp n).1 > 60000
    · rw [if_pos h1]
      cases hsd : stepDown s with
      | some s2 =>
        simp only [addStep]
        calc (runAux resp f (n + 1) s2 (resp n).1 (resp n).2 s).reads
            ≤ (n + 1) + f := ih (n + 1) s2 (resp n).1 (resp n).2 s
          _ = n + (f + 1) := by omega
      | none => simp; try omega
    · rw [if_neg h1]
      by_cases h2 : (resp n).1 < 2000
      · rw [if_pos h2]
        cases hsu : stepUp s with
        | some s2 =>
          simp only [addStep]
          calc (runAux resp f (n + 1) s2 (resp n).1 (resp n).2 s).reads
              ≤ (n + 1) + f := ih (n + 1) s2 (resp n).1 (resp n).2 s
            _ = n + (f + 1) := by omega
        | none => simp; try omega
      · rw [if_neg h2]; simp; try omega

/-- A reading already inside the band [2000, 60000] ends the loop at once. -/
theorem advancedRead_inband (resp : Nat → Nat × Nat) (s : St)
    (h1 : ¬ (resp 0).1 > 60000) (h2 : ¬ (resp 0).1 < 2000) :
    advancedRead resp s =
      ⟨(resp 0).1, (resp 0).2, s, s, 1, ExitKind.band, [], [s]⟩ := by
  show runAux resp (14 + 1) 0 s 0 0 s = _
  rw [runAux_succ, if_neg h1, if_neg h2]

/-- When every bus response is above the saturation threshold, every
adjustment the loop takes is a downward one. -/
theorem runAux_events_down (resp : Nat → Nat × Nat) (h : ∀ i, (resp i).1 > 60000) :
    ∀ fuel n s lf li ls, ∀ d ∈ (runAux resp fuel n s lf li ls).events, d = Dir.down := by
  intro fuel
  induction fuel with
  | zero =>
    intro n s lf li ls d hd
    rw [runAux_zero] at hd
    simp at hd
  | succ f ih =>
    intro n s lf li ls d hd
    rw [runAux_succ, if_pos (h n)] at hd
    cases hsd : stepDown s with
    | some s2 =>
      rw [hsd] at hd
      simp [addStep] at hd
      rcases hd with hd | hd
      · exact hd
      · exact ih (n + 1) s2 (resp n).1 (resp n).2 s d hd
    | none =>
      rw [hsd] at hd
      simp at hd

/-- When every bus response is below the underflow threshold, every
adjustment the loop takes is an upward one. -/
theorem runAux_events_up (resp : Nat → Nat × Nat) (h : ∀ i, (resp i).1 < 2000) :
    ∀ fuel n s lf li ls, ∀ d ∈ (runAux resp fuel n s lf li ls).events, d = Dir.up := by
  intro fuel
  induction fuel with
  | zero =>
    intro n s lf li ls d hd
    rw [runAux_zero] at hd
    simp at hd
  | succ f ih =>
    intro n s lf li ls d hd
    have hn : ¬ (resp n).1 > 60000 := by have := h n; omega
    rw [runAux_succ, if_neg hn, if_pos (h n)] at hd
    cases hsu : stepUp s with
    | some s2 =>
      rw [hsu] at hd
      simp [addStep] at hd
      rcases hd with hd | hd
      · exact hd
      · exact ih (n + 1) s2 (resp n).1 (resp n).2 s d hd
    | none =>
      rw [hsu] at hd
      simp at hd

/-- Exit analysis of the loop: a cap exit returns a reading that was
out-of-band and whose configuration change produced the final configuration;
every other exit returns a reading taken under the final configuration. The
hypothesis supplies the relationship of the carried last-reading arguments,
which holds vacuously at the top-level call with positive fuel. -/
theorem runAux_exit (resp : Nat → Nat × Nat) :
    ∀ fuel n s lf li ls,
      (fuel = 0 →
        (lf > 60000 ∧ stepDown ls = some s) ∨ (lf < 2000 ∧ stepUp ls = some s)) →
      (((runAux resp fuel n s lf li ls).exitKind = ExitKind.cap →
        ((runAux resp fuel n s lf li ls).full > 60000 ∧
          stepDown (runAux resp fuel n s lf li ls).readSt =
            some (runAux resp fuel n s lf li ls).finalSt) ∨
        ((runAux resp fuel n s lf li ls).full < 2000 ∧
          stepUp (runAux resp fuel n s lf li ls).readSt =
            some (runAux resp fuel n s lf li ls).finalSt)) ∧
      ((runAux resp fuel n s lf li ls).exitKind ≠ ExitKind.cap →
        (runAux resp fuel n s lf li ls).readSt =
          (runAux resp fuel n s lf li ls).finalSt)) := by
  intro fuel
  induction fuel with
  | zero =>
    intro n s lf li ls h0
    rw [runAux_zero]
    exact ⟨fun _ => h0 rfl, fun hc => absurd rfl hc⟩
  | succ f ih =>
    intro n s lf li ls _
    rw [runAux_succ]
    by_cases h1 : (resp n).1 > 60000
    · rw [if_pos h1]
      cases hsd : stepDown s with
      | some s2 =>
        have := ih (n + 1) s2 (resp n).1 (resp n).2 s (fun _ => Or.inl ⟨h1, hsd⟩)
        simpa [addStep] using this
      | none => simp
    · rw [if_neg h1]
      by_cases h2 : (resp n).1 < 2000
      · rw [if_pos h2]
        cases hsu : stepUp s with
        | some s2 =>
          have := ih (n + 1) s2 (resp n).1 (resp n).2 s (fun _ => Or.inr ⟨h2, hsu⟩)
          simpa [addStep] using this
        | none => simp
      · rw [if_neg h2]; simp

/-- The configuration the returned reading was taken under satisfies any
property preserved by the step functions, provided both the running state and
the carried last-reading state have it. -/
theorem runAux_readSt_pres (resp : Nat → Nat × Nat) (P : St → Prop)
    (hd : ∀ s s2, P s → stepDown s = some s2 → P s2)
    (hu : ∀ s s2, P s → stepUp s = some s2 → P s2) :
    ∀ fuel n s lf li ls, P s → P ls →
      P (runAux resp fuel n s lf li ls).readSt := by
  intro fuel
  induction fuel with
  | zero =>
    intro n s lf li ls _ hls
    rw [runAux_zero]
    exact hls
  | succ f ih =>
    intro n s lf li ls hs hls
    rw [runAux_succ]
    by_cases h1 : (resp n).1 > 60000
    · rw [if_pos h1]
      cases hsd : stepDown s with
      | some s2 =>
        simpa [addStep] using ih (n + 1) s2 (resp n).1 (resp n).2 s (hd s s2 hs hsd) hs
      | none => simpa using hs
    · rw [if_neg h1]
      by_cases h2 : (resp n).1 < 2000
      · rw [if_pos h2]
        cases hsu : stepUp s with
        | some s2 =>
          simpa [addStep] using ih (n + 1) s2 (resp n).1 (resp n).2 s (hu s s2 hs hsu) hs
        | none => simpa using hs
      · rw [if_neg h2]; simpa using hs

/-! ## Single-axis adjusters of allsky_tsl2591SQM.py (`adjTime`, `adjGain`) -/

/-- `Tsl2591.adjTime` of allsky_tsl2591SQM.py (lines 196-226), acting on the
integration enum: step up when `adjDirection > DOWN` (`DOWN = 0`), step down
otherwise, clamping at 100ms and 600ms; the final `else` branch also catches
any out-of-range enum. -/
def tsl_adjTime (t dir : Nat) : Nat :=
  if t = 0 then (if dir > 0 then 1 else 0)
  else if t = 1 then (if dir > 0 then 2 else 0)
  else if t = 2 then (if dir > 0 then 3 else 1)
  else if t = 3 then (if dir > 0 then 4 else 2)
  else if t = 4 then (if dir > 0 then 5 else 3)
  else (if dir > 0 then 5 else 4)

/-- `Tsl2591.adjGain` of allsky_tsl2591SQM.py (lines 228-248), acting on the
gain code, clamping at GAIN_LOW and GAIN_MAX; the final `else` branch also
catches any out-of-range code. -/
def tsl_adjGain (g dir : Nat) : Nat :=
  if g = GAIN_LOW then (if dir > 0 then GAIN_MED else GAIN_LOW)
  else if g = GAIN_MED then (if dir > 0 then GAIN_HIGH else GAIN_LOW)
  else if g = GAIN_HIGH then (if dir > 0 then GAIN_MAX else GAIN_MED)
  else (if dir > 0 then GAIN_MAX else GAIN_HIGH)

/-! ## Photometric calculators -/

/-- The per-configuration conversion factor of `Tsl2591.calculate_light` in
allsky_pisqm.py (line 147): `cpuW0 = (atime / 100.0) * (again / 400.0) *
264.1`, with `atime` from `get_int_time_ms` and `again` from the gain
dictionary whose default is 24.5. -/
def pisqm_gain_mult (g : Nat) : ℚ :=
  if g = GAIN_LOW then 1
  else if g = GAIN_MED then 24.5
  else if g = GAIN_HIGH then 400
  else if g = GAIN_MAX then 9876
  else 24.5

def pisqm_cpuW0 (s : St) : ℚ :=
  ((get_int_time_ms s.integ : ℚ) / 100) * (pisqm_gain_mult s.gain / 400) * 264.1

/-- `Tsl2591.calculate_light` of allsky_pisqm.py (lines 135-154): zero pair
when either raw count is at or above 0xFFFF or the conversion factor is zero,
otherwise both channels divided by the factor. -/
def pisqm_calculate_light (s : St) (full ir : Nat) : ℚ × ℚ :=
  if 0xFFFF ≤ full ∨ 0xFFFF ≤ ir then (0, 0)
  else if pisqm_cpuW0 s = 0 then (0, 0)
  else ((full : ℚ) / pisqm_cpuW0 s, (ir : ℚ) / pisqm_cpuW0 s)

/-- The integration-time dictionary of allsky_tsl2591SQM.py's
`calculate_light` (lines 164-176), whose default is 600 rather than 100. -/
def tsl_atime (integ : Nat) : ℚ :=
  if integ = 0 then 100
  else if integ = 1 then 200
  else if integ = 2 then 300
  else if integ = 3 then 400
  else if integ = 4 then 500
  else if integ = 5 then 600
  else 600

/-- The gain dictionary of allsky_tsl2591SQM.py's `calculate_light` (lines
178-188), whose default is 9876 rather than 24.5. -/
def tsl_gain_mult (g : Nat) : ℚ :=
  if g = GAIN_LOW then 1
  else if g = GAIN_MED then 24.5
  else if g = GAIN_HIGH then 400
  else if g = GAIN_MAX then 9876
  else 9876

/-- The two possible shapes of allsky_tsl2591SQM.py's `calculate_light`
return value: the bare scalar `-1` on saturation (line 162), or the pair of
converted channels. -/
inductive TslCalcResult where
  | scalar (v : ℚ)
  | pair (fullc irc : ℚ)
deriving DecidableEq, Repr

/-- `Tsl2591.calculate_light` of allsky_tsl2591SQM.py (lines 160-194): the
saturation test compares with equality (`== 0xFFFF`), the invalid return is
the scalar `-1`, and there is no zero test on the conversion factor. -/
def tsl_calculate_light (s : St) (full ir : Nat) : TslCalcResult :=
  if full = 0xFFFF ∨ ir = 0xFFFF then TslCalcResult.scalar (-1)
  else
    TslCalcResult.pair
      ((full : ℚ) / ((tsl_atime s.integ / 100) * (tsl_gain_mult s.gain / 400) * 264.1))
      ((ir : ℚ) / ((tsl_atime s.integ / 100) * (tsl_gain_mult s.gain / 400) * 264.1))

/-! ## Brightness magnitude -/

/-- The MPSAS computation of allsky_pisqm.py (lines 404-408): `log10`
abstracts `math.log10`, which no result below depends on. -/
def pisqm_mpsas (log10 : ℚ → ℚ) (M0 GA flux : ℚ) : ℚ :=
  if 0 < flux then M0 + GA - 2.5 * log10 flux else 25

/-- The MPSAS computation of allsky_tsl2591SQM.py (lines 336-344): a zero
flux takes the `else` branch and yields `-25.0`; a negative flux enters the
`math.log10` call, which raises `ValueError` on a non-positive argument —
modelled as `none`. `round2` abstracts `round(x, 2)`. -/
def tsl_mpsas (log10 round2 : ℚ → ℚ) (M0 GA flux : ℚ) : Option ℚ :=
  if flux ≠ 0 then
    if 0 < flux then some (round2 (M0 + GA - 2.5 * log10 flux)) else none
  else
    some (-25)

/-! ## Bus word reads -/

/-- Outcome of one underlying `smbus2` word transaction: a value, or a raised
transport exception. -/
inductive BusResult where
  | ok (v : Nat)
  | err
deriving DecidableEq, Repr

/-- `Tsl2591.read_word` of allsky_pisqm.py (lines 156-161): a `try` block
that logs any exception and returns 0. -/
def pisqm_read_word (r : BusResult) : Nat :=
  match r with
  | BusResult.ok v => v
  | BusResult.err => 0

/-- `Tsl2591.read_word` of allsky_tsl2591SQM.py (lines 250-252): no handler;
the bus outcome, value or exception, passes through to the caller. -/
def tsl_read_word (r : BusResult) : BusResult := r

/-! ## Driver configuration writes (`set_timing`, `set_gain`) -/

/-- Full driver object state: the two configuration fields, the power bit of
the enable register, and the last value written to the control register. -/
structure Driver where
  integration_time : Nat
  gain : Nat
  powerOn : Bool
  control : Nat
deriving DecidableEq, Repr

/-- `Tsl2591.set_timing` of allsky_pisqm.py (lines 106-113): store the new
integration enum, `enable()` (power on), write `integration_time | gain` to
the control register; no trailing `disable()`. -/
def pisqm_set_timing (d : Driver) (integration : Nat) : Driver :=
  { d with
    integration_time := integration
    powerOn := true
    control := integration ||| d.gain }

/-- `Tsl2591.set_gain` of allsky_pisqm.py (lines 115-122). -/
def pisqm_set_gain (d : Driver) (g : Nat) : Driver :=
  { d with
    gain := g
    powerOn := true
    control := d.integration_time ||| g }

/-- `Tsl2591.set_timing` of allsky_tsl2591SQM.py (lines 126-134): `enable()`,
store, write the control register, then `disable()` — the device is powered
off when the call returns. -/
def tsl_set_timing (d : Driver) (integration : Nat) : Driver :=
  { d with
    integration_time := integration
    powerOn := false
    control := integration ||| d.gain }

/-- `Tsl2591.set_gain` of allsky_tsl2591SQM.py (lines 136-144), likewise
ending in `disable()`. -/
def tsl_set_gain (d : Driver) (g : Nat) : Driver :=
  { d with
    gain := g
    powerOn := false
    control := d.integration_time ||| g }

/-! ## Low-light averager of allsky_tsl2591SQM.py (`read_low_lux`) -/

/-- The accumulation loop of `Tsl2591.read_low_lux` (allsky_tsl2591SQM.py
lines 292-297): `nread` counts the `advanced_read` cycles done so far,
`fullSum`/`irSum` the accumulated counts (`Int`, as the Python difference
`fullSum - irSum` may be negative); the loop repeats while the accumulated
visible signal is under 128 and fewer than 40 cycles were done. `resp i` is
the reading of the i-th cycle; `fuel` only makes the recursion structural and
is chosen so it never runs out before `nread < 40` fails. -/
def lowLuxAux (resp : Nat → Nat × Nat) (fuel nread : Nat) (fullSum irSum : Int) :
    Nat × Int × Int :=
  match fuel with
  | 0 => (nread, fullSum, irSum)
  | fuel + 1 =>
    if fullSum - irSum < 128 ∧ nread < 40 then
      lowLuxAux resp fuel (nread + 1)
        (fullSum + ((resp nread).1 : Int)) (irSum + ((resp nread).2 : Int))
    else
      (nread, fullSum, irSum)

/-- `Tsl2591.read_low_lux` of allsky_tsl2591SQM.py (lines 284-301), up to the
final `calculate_light` call: returns the number of cycles and the two
averaged counts (`full = fullSum/nread`, `ir = irSum/nread`) that the source
then hands to `calculate_light`. -/
def read_low_lux (resp : Nat → Nat × Nat) : Nat × ℚ × ℚ :=
  let r := lowLuxAux resp 39 1 ((resp 0).1 : Int) ((resp 0).2 : Int)
  (r.1, (r.2.1 : ℚ) / (r.1 : ℚ), (r.2.2 : ℚ) / (r.1 : ℚ))

theorem lowLuxAux_zero (resp : Nat → Nat × Nat) (nread : Nat) (fullSum irSum : Int) :
    lowLuxAux resp 0 nread fullSum irSum = (nread, fullSum, irSum) := rfl

theorem lowLuxAux_succ (resp : Nat → Nat × Nat) (fuel nread : Nat) (fullSum irSum : Int) :
    lowLuxAux resp (fuel + 1) nread fullSum irSum =
      if fullSum - irSum < 128 ∧ nread < 40 then
        lowLuxAux resp fuel (nread + 1)
          (fullSum + ((resp nread).1 : Int)) (irSum + ((resp nread).2 : Int))
      else
        (nread, fullSum, irSum) := rfl

/-! ## Persisted smart-start seed of allsky_pisqm.py -/

/-- The `ms_to_enum` reverse map of allsky_pisqm.py (lines 346-353), as the
membership test plus lookup of lines 376-377. -/
def ms_to_enum (ms : Int) : Option Nat :=
  if ms = 100 then some 0
  else if ms = 200 then some 1
  else if ms = 300 then some 2
  else if ms = 400 then some 3
  else if ms = 500 then some 4
  else if ms = 600 then some 5
  else none

/-- The smart-memory restoration of allsky_pisqm.py (lines 355-377) given the
two integer fields of the stored JSON record (`none` for an absent key):
start from the Auto-mode defaults `GAIN_MED` and the 200ms enum, restore the
gain when present and one of the four codes, restore the integration enum
when present and one of the six millisecond values. -/
def loadSeed (gainField intField : Option Int) : Nat × Nat :=
  (match gainField with
   | some g =>
     if g = 0 ∨ g = 16 ∨ g = 32 ∨ g = 48 then g.toNat
     else GAIN_MED
   | none => GAIN_MED,
   match intField with
   | some ms =>
     match ms_to_enum ms with
     | some e => e
     | none => 1
   | none => 1)

/-- The persisted record written by allsky_pisqm.py (lines 413-420):
`AS_PISQM_GAIN` holds `tsl.gain` and `AS_PISQM_INT` holds
`tsl.get_int_time_ms()`. -/
def saveSeed (s : St) : Option Int × Option Int :=
  (some (s.gain : Int), some ((get_int_time_ms s.integ : Int)))

/-! ## Claim theorems -/

theorem pisqm_cpuW0_pos (s : St) : 0 < pisqm_cpuW0 s := by
  unfold pisqm_cpuW0 pisqm_gain_mult get_int_time_ms
  split_ifs <;> norm_num

/-- C1 (counterexample): in the tsl2591SQM variant a zero flux yields the
magnitude -25.0, not the fixed dark-limit constant 25.0 claimed for every
variant. -/
theorem C1_counterexample :
    tsl_mpsas id id (-16.07) 25.55 0 = some (-25) ∧
    tsl_mpsas id id (-16.07) 25.55 0 ≠ some 25 := by
  constructor <;> norm_num [tsl_mpsas]

/-- C1 (amended): the pisqm variant returns exactly 25.0 for flux ≤ 0 and
m0 + ga - 2.5*log10(flux) for flux > 0; the tsl2591SQM variant instead
returns -25.0 at flux = 0, raises (models as none) for flux < 0, and rounds
the computed magnitude to two decimals for flux > 0. -/
theorem C1_brightness_magnitude (log10 round2 : ℚ → ℚ) (M0 GA flux : ℚ) :
    (flux ≤ 0 → pisqm_mpsas log10 M0 GA flux = 25) ∧
    (0 < flux → pisqm_mpsas log10 M0 GA flux = M0 + GA - 2.5 * log10 flux) ∧
    (0 < flux →
      tsl_mpsas log10 round2 M0 GA flux = some (round2 (M0 + GA - 2.5 * log10 flux))) ∧
    (flux < 0 → tsl_mpsas log10 round2 M0 GA flux = none) ∧
    tsl_mpsas log10 round2 M0 GA 0 = some (-25) := by
  refine ⟨?_, ?_, ?_, ?_, ?_⟩
  · intro h
    unfold pisqm_mpsas
    rw [if_neg (by linarith)]
  · intro h
    unfold pisqm_mpsas
    rw [if_pos h]
  · intro h
    unfold tsl_mpsas
    rw [if_pos (ne_of_gt h), if_pos h]
  · intro h
    unfold tsl_mpsas
    rw [if_pos (ne_of_lt h), if_neg (by linarith)]
  · unfold tsl_mpsas
    simp

/-- C1 (witness): the amended statement evaluated at flux = -5 (dark clamp of
the pisqm variant) and flux = 3 (formula branch of the pisqm variant). -/
theorem C1_witness :
    ((-5 : ℚ) ≤ 0 ∧ pisqm_mpsas id (-16.07) 25.55 (-5) = 25) ∧
    ((0 : ℚ) < 3 ∧ pisqm_mpsas id (-16.07) 25.55 3 = -16.07 + 25.55 - 2.5 * id 3) :=
  ⟨⟨by norm_num, (C1_brightness_magnitude id id (-16.07) 25.55 (-5)).1 (by norm_num)⟩,
   ⟨by norm_num, (C1_brightness_magnitude id id (-16.07) 25.55 3).2.1 (by norm_num)⟩⟩

/-- C2 (counterexample): in the tsl2591SQM variant a saturated full channel
yields the scalar sentinel -1, not the pair (0, 0) claimed for every
variant. -/
theorem C2_counterexample :
    tsl_calculate_light ⟨GAIN_MED, 1⟩ 0xFFFF 0 = TslCalcResult.scalar (-1) ∧
    tsl_calculate_light ⟨GAIN_MED, 1⟩ 0xFFFF 0 ≠ TslCalcResult.pair 0 0 := by
  refine ⟨by norm_num [tsl_calculate_light], ?_⟩
  norm_num [tsl_calculate_light]
  exact fun hc => TslCalcResult.noConfusion hc

/-- C2 (amended): the pisqm variant returns (0, 0) when either raw count is
at least 0xFFFF or the conversion factor is zero, and (full/cpuW0, ir/cpuW0)
otherwise; moreover cpuW0 is strictly positive for every configuration, so
the zero-factor guard never fires; the tsl2591SQM variant instead returns the
scalar -1 when either raw count equals 0xFFFF. -/
theorem C2_channel_irradiance (s : St) (full ir : Nat) :
    (0xFFFF ≤ full ∨ 0xFFFF ≤ ir → pisqm_calculate_light s full ir = (0, 0)) ∧
    0 < pisqm_cpuW0 s ∧
    (full < 0xFFFF → ir < 0xFFFF →
      pisqm_calculate_light s full ir =
        ((full : ℚ) / pisqm_cpuW0 s, (ir : ℚ) / pisqm_cpuW0 s)) ∧
    (full = 0xFFFF ∨ ir = 0xFFFF →
      tsl_calculate_light s full ir = TslCalcResult.scalar (-1)) := by
  refine ⟨?_, pisqm_cpuW0_pos s, ?_, ?_⟩
  · intro h
    unfold pisqm_calculate_light
    rw [if_pos h]
  · intro h1 h2
    unfold pisqm_calculate_light
    rw [if_neg (by omega), if_neg (ne_of_gt (pisqm_cpuW0_pos s))]
  · intro h
    unfold tsl_calculate_light
    rw [if_pos h]

/-- C2 (witness): the amended statement evaluated at a saturated full
channel. -/
theorem C2_witness :
    ((0xFFFF : Nat) ≤ 0xFFFF ∨ (0xFFFF : Nat) ≤ 0) ∧
    pisqm_calculate_light ⟨GAIN_MED, 1⟩ 0xFFFF 0 = (0, 0) :=
  ⟨Or.inl (le_refl _),
   (C2_channel_irradiance ⟨GAIN_MED, 1⟩ 0xFFFF 0).1 (Or.inl (le_refl _))⟩

/-- C6 (counterexample): the tsl2591SQM variant's read_word has no exception
handler: a bus transport error propagates to the caller instead of being
turned into the value 0. -/
theorem C6_counterexample :
    tsl_read_word BusResult.err = BusResult.err ∧
    tsl_read_word BusResult.err ≠ BusResult.ok 0 :=
  ⟨rfl, by decide⟩

/-- C6 (amended): the pisqm variant's read_word returns 0 on a bus transport
error and the value otherwise, never propagating; the tsl2591SQM variant's
read_word passes the bus outcome through unchanged, so an exception
propagates upward. -/
theorem C6_read_word_error :
    pisqm_read_word BusResult.err = 0 ∧
    (∀ v, pisqm_read_word (BusResult.ok v) = v) ∧
    (∀ r, tsl_read_word r = r) :=
  ⟨rfl, fun _ => rfl, fun _ => rfl⟩

/-- C7 (counterexample): the tsl2591SQM variant's set_timing ends in
disable(), so even from the powered-on state the device is left Off, not the
On (measuring) state claimed for every variant. -/
theorem C7_counterexample :
    (tsl_set_timing ⟨1, 16, true, 0⟩ 2).powerOn = false ∧
    (tsl_set_timing ⟨1, 16, true, 0⟩ 2).powerOn ≠ true :=
  ⟨rfl, by decide⟩

/-- C7 (amended): set_timing and set_gain are idempotent in both variants
and from any starting power state; the pisqm variant leaves the device
powered on (callers must disable explicitly), while the tsl2591SQM variant
disables internally and leaves the device powered off. -/
theorem C7_set_calls (d : Driver) (integration g : Nat) :
    pisqm_set_timing (pisqm_set_timing d integration) integration =
      pisqm_set_timing d integration ∧
    pisqm_set_gain (pisqm_set_gain d g) g = pisqm_set_gain d g ∧
    (pisqm_set_timing d integration).powerOn = true ∧
    (pisqm_set_gain d g).powerOn = true ∧
    tsl_set_timing (tsl_set_timing d integration) integration =
      tsl_set_timing d integration ∧
    tsl_set_gain (tsl_set_gain d g) g = tsl_set_gain d g ∧
    (tsl_set_timing d integration).powerOn = false ∧
    (tsl_set_gain d g).powerOn = false :=
  ⟨rfl, rfl, rfl, rfl, rfl, rfl, rfl, rfl⟩

theorem advancedRead_def (resp : Nat → Nat × Nat) (s : St) :
    advancedRead resp s = runAux resp 15 0 s 0 0 s := rfl

/-- All adjustments taken during one auto-ranging cycle go the same
direction. -/
abbrev sameDir (evs : List Dir) : Prop := ∀ d₁ ∈ evs, ∀ d₂ ∈ evs, d₁ = d₂

/-- Bus responses that saturate on the first attempt and underflow on every
later one. -/
def respOsc (i : Nat) : Nat × Nat := if i = 0 then (70000, 0) else (100, 0)

/-- C3 (counterexample): the controller keeps no direction latch. Under the
response sequence 70000, 100, 100, ... starting from (GAIN_MED, 200ms) it
first steps sensitivity down and then steps up seven times within the same
cycle, the band never having been reached. -/
theorem C3_counterexample :
    ¬ sameDir (advancedRead respOsc ⟨GAIN_MED, 1⟩).events ∧
    (advancedRead respOsc ⟨GAIN_MED, 1⟩).events =
      [Dir.down, Dir.up, Dir.up, Dir.up, Dir.up, Dir.up, Dir.up, Dir.up] := by
  decide

/-- C3 (amended): the per-cycle movement is one direction only when the bus
responses keep one constant full-spectrum value: a constant saturating value
produces only downward steps, a constant underflowing value only upward
steps, and a constant in-band value no steps; for non-constant response
sequences the direction can reverse within one cycle. -/
theorem C3_one_direction (resp : Nat → Nat × Nat) (s : St) (c : Nat)
    (h : ∀ i, (resp i).1 = c) :
    sameDir (advancedRead resp s).events := by
  rw [advancedRead_def]
  by_cases hc1 : c > 60000
  · intro d₁ h₁ d₂ h₂
    have e₁ := runAux_events_down resp (fun i => by rw [h i]; exact hc1) 15 0 s 0 0 s d₁ h₁
    have e₂ := runAux_events_down resp (fun i => by rw [h i]; exact hc1) 15 0 s 0 0 s d₂ h₂
    rw [e₁, e₂]
  · by_cases hc2 : c < 2000
    · intro d₁ h₁ d₂ h₂
      have e₁ := runAux_events_up resp (fun i => by rw [h i]; exact hc2) 15 0 s 0 0 s d₁ h₁
      have e₂ := runAux_events_up resp (fun i => by rw [h i]; exact hc2) 15 0 s 0 0 s d₂ h₂
      rw [e₁, e₂]
    · rw [← advancedRead_def,
        advancedRead_inband resp s (by rw [h 0]; exact hc1) (by rw [h 0]; exact hc2)]
      intro d₁ h₁ d₂ h₂
      simp at h₁

/-- C3 (witness): the amended statement at the constant in-band response
2500. -/
theorem C3_witness :
    (∀ i : Nat, ((fun _ : Nat => ((2500 : Nat), (0 : Nat))) i).1 = 2500) ∧
    sameDir (advancedRead (fun _ => (2500, 0)) ⟨GAIN_MED, 1⟩).events :=
  ⟨fun _ => rfl, C3_one_direction (fun _ => (2500, 0)) ⟨GAIN_MED, 1⟩ 2500 (fun _ => rfl)⟩

/-- C4: the auto-ranging loop of advanced_read makes at most 15 reading
attempts for every response sequence, and exactly one when every response
carries one constant in-band full-spectrum count (2000 ≤ c ≤ 60000). -/
theorem C4_attempt_bound (resp : Nat → Nat × Nat) (s : St) :
    (advancedRead resp s).reads ≤ 15 ∧
    (∀ c, (∀ i, (resp i).1 = c) → 2000 ≤ c → c ≤ 60000 →
      (advancedRead resp s).reads = 1) := by
  constructor
  · rw [advancedRead_def]
    simpa using runAux_reads_le resp 15 0 s 0 0 s
  · intro c h h1 h2
    rw [advancedRead_inband resp s (by rw [h 0]; omega) (by rw [h 0]; omega)]

/-- C4 (witness): the bound and the single-read exit at the constant in-band
response 2500 from (GAIN_MED, 200ms). -/
theorem C4_witness :
    ((∀ i : Nat, ((fun _ : Nat => ((2500 : Nat), (0 : Nat))) i).1 = 2500) ∧
      (2000 : Nat) ≤ 2500 ∧ (2500 : Nat) ≤ 60000) ∧
    (advancedRead (fun _ => (2500, 0)) ⟨GAIN_MED, 1⟩).reads = 1 :=
  ⟨⟨fun _ => rfl, by omega, by omega⟩,
   (C4_attempt_bound (fun _ => (2500, 0)) ⟨GAIN_MED, 1⟩).2 2500 (fun _ => rfl)
     (by omega) (by omega)⟩

/-- C5: throughout an auto-ranging cycle started from a valid configuration,
every visited pisqm configuration keeps its gain between GAIN_LOW and
GAIN_MAX and its integration time between 100ms and 600ms; the tsl2591SQM
adjusters clamp unconditionally, adjTime never leaving the six integration
steps upward of 600ms and adjGain always landing on one of the four gain
levels. -/
theorem C5_lattice_bounds :
    (∀ (resp : Nat → Nat × Nat) (s : St), validSt s →
      ∀ x ∈ (advancedRead resp s).trace,
        GAIN_LOW ≤ x.gain ∧ x.gain ≤ GAIN_MAX ∧
        100 ≤ get_int_time_ms x.integ ∧ get_int_time_ms x.integ ≤ 600) ∧
    (∀ t dir, tsl_adjTime t dir ≤ INTEGRATIONTIME_600MS) ∧
    (∀ g dir, tsl_adjGain g dir = GAIN_LOW ∨ tsl_adjGain g dir = GAIN_MED ∨
      tsl_adjGain g dir = GAIN_HIGH ∨ tsl_adjGain g dir = GAIN_MAX) := by
  refine ⟨?_, ?_, ?_⟩
  · intro resp s hs x hx
    rw [advancedRead_def] at hx
    have hv : validSt x :=
      runAux_trace_pres resp validSt (fun a b ha hb => stepDown_valid ha hb)
        (fun a b ha hb => stepUp_valid ha hb) 15 0 s 0 0 s hs x hx
    obtain ⟨hg, hi⟩ := hv
    refine ⟨Nat.zero_le x.gain, ?_, ?_, ?_⟩
    · rcases hg with hg | hg | hg | hg <;>
        simp [hg, GAIN_LOW, GAIN_MED, GAIN_HIGH, GAIN_MAX]
    · unfold get_int_time_ms
      split_ifs <;> norm_num
    · unfold get_int_time_ms
      split_ifs <;> norm_num
  · intro t dir
    unfold tsl_adjTime INTEGRATIONTIME_600MS
    split_ifs <;> omega
  · intro g dir
    unfold tsl_adjGain GAIN_LOW GAIN_MED GAIN_HIGH GAIN_MAX
    split_ifs <;> omega

/-- C5 (witness): the pisqm bound instantiated at the constant response 2500
from the valid start (GAIN_MED, 200ms). -/
theorem C5_witness :
    validSt ⟨GAIN_MED, 1⟩ ∧
    ∀ x ∈ (advancedRead (fun _ => (2500, 0)) ⟨GAIN_MED, 1⟩).trace,
      GAIN_LOW ≤ x.gain ∧ x.gain ≤ GAIN_MAX ∧
      100 ≤ get_int_time_ms x.integ ∧ get_int_time_ms x.integ ≤ 600 :=
  ⟨by decide, C5_lattice_bounds.1 (fun _ => (2500, 0)) ⟨GAIN_MED, 1⟩ (by decide)⟩

/-- The returned reading's configuration and the stored final configuration
disagree exactly on the cap-exhaustion exit, where the final configuration is
the one-step change triggered by the out-of-band 15th reading. -/
abbrev agreeOnExit (r : RunResult) : Prop :=
  (r.exitKind = ExitKind.cap →
    r.readSt ≠ r.finalSt ∧
    ((r.full > 60000 ∧ stepDown r.readSt = some r.finalSt) ∨
     (r.full < 2000 ∧ stepUp r.readSt = some r.finalSt))) ∧
  (r.exitKind ≠ ExitKind.cap → r.readSt = r.finalSt)

/-- C10: started from a valid configuration, when advanced_read exhausts the
15-attempt cap the returned counts were read under the configuration before
the final change while the stored configuration is the changed one (they
always differ, the change being the down or up step triggered by the final
out-of-band reading); on every other exit the returned reading was taken
under the stored configuration. -/
theorem C10_cap_mismatch (resp : Nat → Nat × Nat) (s : St) (hv : validSt s) :
    agreeOnExit (advancedRead resp s) := by
  rw [advancedRead_def]
  have hrv : validSt (runAux resp 15 0 s 0 0 s).readSt :=
    runAux_readSt_pres resp validSt (fun a b ha hb => stepDown_valid ha hb)
      (fun a b ha hb => stepUp_valid ha hb) 15 0 s 0 0 s hv hv
  have hex := runAux_exit resp 15 0 s 0 0 s (fun h0 => absurd h0 (by decide))
  constructor
  · intro hc
    have h1 := hex.1 hc
    refine ⟨?_, h1⟩
    rcases h1 with ⟨_, hsd⟩ | ⟨_, hsu⟩
    · exact (stepDown_ne hrv hsd).symm
    · exact (stepUp_ne hrv hsu).symm
  · exact hex.2

/-- Bus responses alternating between saturation and underflow, keeping the
controller ping-ponging until the attempt cap. -/
def respPing (i : Nat) : Nat × Nat := if i % 2 = 0 then (70000, 0) else (100, 0)

/-- C10 (witness): the statement at the alternating response sequence, which
exhausts the cap from (GAIN_MED, 200ms). -/
theorem C10_witness :
    validSt ⟨GAIN_MED, 1⟩ ∧ agreeOnExit (advancedRead respPing ⟨GAIN_MED, 1⟩) :=
  ⟨by decide, C10_cap_mismatch respPing ⟨GAIN_MED, 1⟩ (by decide)⟩

theorem lowLuxAux_le (resp : Nat → Nat × Nat) :
    ∀ fuel nread fullSum irSum, nread ≤ 40 →
      (lowLuxAux resp fuel nread fullSum irSum).1 ≤ 40 := by
  intro fuel
  induction fuel with
  | zero =>
    intro n f i h
    rw [lowLuxAux_zero]
    exact h
  | succ fu ih =>
    intro n f i h
    rw [lowLuxAux_succ]
    by_cases hc : f - i < 128 ∧ n < 40
    · rw [if_pos hc]
      exact ih (n + 1) _ _ (by omega)
    · rw [if_neg hc]
      exact h

/-- C8 (counterexample): with every cycle reading (full=10, ir=2) the
low-light loop stops after 16 reads — when the accumulated visible sum
reaches the 128 floor — not after the claimed 40 repeats. -/
theorem C8_counterexample :
    (read_low_lux fun _ => (10, 2)).1 = 16 ∧
    (read_low_lux fun _ => (10, 2)).1 ≠ 40 := by
  decide

/-- C8 (amended): with a fixed per-cycle reading (full=10, ir=2) the
low-light averager performs exactly 16 reads (the accumulated visible sum
10·n − 2·n reaches the 128 noise floor at n = 16) and the averaged counts
handed to the calculator equal exactly (10, 2); for every response sequence
the number of reads never exceeds 40. -/
theorem C8_low_light (resp : Nat → Nat × Nat) :
    ((∀ i, resp i = (10, 2)) →
      (read_low_lux resp).1 = 16 ∧
      (read_low_lux resp).2.1 = 10 ∧ (read_low_lux resp).2.2 = 2) ∧
    (read_low_lux resp).1 ≤ 40 := by
  constructor
  · intro h
    have hr : resp = fun _ => (10, 2) := funext h
    subst hr
    have haux : lowLuxAux (fun _ => (10, 2)) 39 1 10 2 = (16, 160, 32) := by decide
    refine ⟨?_, ?_, ?_⟩
    · show (lowLuxAux (fun _ => (10, 2)) 39 1 10 2).1 = 16
      rw [haux]
    · show ((lowLuxAux (fun _ => (10, 2)) 39 1 10 2).2.1 : ℚ) /
        ((lowLuxAux (fun _ => (10, 2)) 39 1 10 2).1 : ℚ) = 10
      rw [haux]
      norm_num
    · show ((lowLuxAux (fun _ => (10, 2)) 39 1 10 2).2.2 : ℚ) /
        ((lowLuxAux (fun _ => (10, 2)) 39 1 10 2).1 : ℚ) = 2
      rw [haux]
      norm_num
  · have := lowLuxAux_le resp 39 1 ((resp 0).1 : Int) ((resp 0).2 : Int) (by omega)
    simpa [read_low_lux] using this

/-- C8 (witness): the averager evaluated at the constant reading (10, 2). -/
theorem C8_witness :
    (∀ i : Nat, (fun _ : Nat => ((10 : Nat), (2 : Nat))) i = (10, 2)) ∧
    ((read_low_lux fun _ => (10, 2)).1 = 16 ∧
      (read_low_lux fun _ => (10, 2)).2.1 = 10 ∧
      (read_low_lux fun _ => (10, 2)).2.2 = 2) :=
  ⟨fun _ => rfl, (C8_low_light fun _ => (10, 2)).1 (fun _ => rfl)⟩

/-- C9 (counterexample): a stored record with a valid gain (GAIN_HIGH = 32)
and an integration value (250 ms) matching no step is not wholly discarded:
the gain is still restored, so the loaded start is (32, default) and not the
claimed pair of defaults (GAIN_MED, 200ms). -/
theorem C9_counterexample :
    loadSeed (some 32) (some 250) = (32, 1) ∧
    loadSeed (some 32) (some 250) ≠ (GAIN_MED, 1) := by
  decide

/-- C9 (amended): saving a valid configuration and loading it back restores
the identical gain level and integration step; a stored integration value
matching no step makes only the integration axis fall back to its default,
while a valid gain in the same record is still restored (per-field, not
whole-record, validation). -/
theorem C9_seed_round_trip :
    (∀ s : St, validSt s → loadSeed (saveSeed s).1 (saveSeed s).2 = (s.gain, s.integ)) ∧
    (∀ g ms : Int, (g = 0 ∨ g = 16 ∨ g = 32 ∨ g = 48) → ms_to_enum ms = none →
      loadSeed (some g) (some ms) = (g.toNat, 1)) := by
  constructor
  · intro s hv
    obtain ⟨g, t⟩ := s
    obtain ⟨hg, hi⟩ := hv
    simp [GAIN_LOW, GAIN_MED, GAIN_HIGH, GAIN_MAX] at hg
    rcases hg with rfl | rfl | rfl | rfl <;> interval_cases t <;> decide
  · intro g ms hg hms
    rcases hg with rfl | rfl | rfl | rfl <;> simp [loadSeed, hms]

/-- C9 (witness): the round trip at the valid configuration
(GAIN_MAX, 500ms). -/
theorem C9_witness :
    validSt ⟨GAIN_MAX, 4⟩ ∧
    loadSeed (saveSeed ⟨GAIN_MAX, 4⟩).1 (saveSeed ⟨GAIN_MAX, 4⟩).2 = (GAIN_MAX, 4) :=
  ⟨by decide, C9_seed_round_trip.1 ⟨GAIN_MAX, 4⟩ (by decide)⟩

end Allsky
